import Mathlib

/-!
Verification development for the farm-management + POS application
(`farm_manager_app.py`).  The data model (sites / crops / sales CSV tables)
and the mutating operations reachable from the UI (add site, add crop,
edit crop, finalize sale) are embedded as pure Lean functions; quantities
and prices are modelled as rationals, calendar dates as integers (days).
-/

namespace FarmApp

/-- A row of `sites.csv`: columns `site_id, site_name, address, phone, notes`.
The source's sites table has no `kind` column. -/
structure Site where
  site_id : Nat
  site_name : String
  address : String
  phone : String
  notes : String
deriving DecidableEq

/-- A row of `crops.csv`. -/
structure Crop where
  crop_id : Nat
  site_id : Nat
  item_name : String
  date_planted : Int
  expected_harvest_date : Int
  actual_harvest_date : Option Int
  yield_qty : ℚ
  unit : String
  price_per_unit : ℚ
  notes : String
  available_qty : ℚ
deriving DecidableEq

/-- One entry of the session cart (the dict appended by "Add to cart"). -/
structure CartItem where
  crop_id : Nat
  item_name : String
  qty : ℚ
  unit : String
  price_per_unit : ℚ
deriving DecidableEq

/-- A row of `sales.csv`: columns
`sale_id, date, site_id, items_json, subtotal, tax, total, notes`. -/
structure Sale where
  sale_id : Nat
  date : Int
  site_id : Nat
  items_json : List CartItem
  subtotal : ℚ
  tax : ℚ
  total : ℚ
  notes : String
deriving DecidableEq

/-- The persistent state: the three CSV files. -/
structure Store where
  sites : List Site
  crops : List Crop
  sales : List Sale
deriving DecidableEq

def emptyStore : Store := ⟨[], [], []⟩

/-- `next_id(df, id_col)`: `1` if the table is empty, else `max + 1`. -/
def next_id (ids : List Nat) : Nat :=
  if ids.isEmpty then 1 else ids.foldl max 0 + 1

/-- The tax rate applied at line 298 of the source: `tax = subtotal * 0.0`. -/
def tax_rate : ℚ := 0

/-- The "Add Site" form: appends a row with a fresh `site_id`. -/
def addSite (s : Store) (site_name address phone notes : String) : Store :=
  { s with sites := s.sites ++
      [{ site_id := next_id (s.sites.map Site.site_id), site_name := site_name,
         address := address, phone := phone, notes := notes }] }

/-- The "Add Crop / Item" form: appends a row with a fresh `crop_id`;
`available_qty` is initialised to the supplied `yield_qty`
(source comment: "initial available equal yield"). -/
def addCrop (s : Store) (site_id : Nat) (item_name : String)
    (date_planted expected_harvest_date : Int) (actual_harvest_date : Option Int)
    (yield_qty : ℚ) (unit : String) (price_per_unit : ℚ) (notes : String) : Store :=
  { s with crops := s.crops ++
      [{ crop_id := next_id (s.crops.map Crop.crop_id), site_id := site_id,
         item_name := item_name, date_planted := date_planted,
         expected_harvest_date := expected_harvest_date,
         actual_harvest_date := actual_harvest_date, yield_qty := yield_qty,
         unit := unit, price_per_unit := price_per_unit, notes := notes,
         available_qty := yield_qty }] }

/-- `crops_df.at[idx, ...] := ...` where
`idx = crops_df.index[crops_df["crop_id"]==cid][0]`: rewrite the first row
whose `crop_id` matches. -/
def updateFirst (f : Crop → Crop) (cid : Nat) : List Crop → List Crop
  | [] => []
  | c :: rest => if c.crop_id = cid then f c :: rest else c :: updateFirst f cid rest

/-- The "Edit Crop / Update Inventory" form: overwrite `available_qty` and
`actual_harvest_date` of the selected crop. -/
def editCrop (s : Store) (cid : Nat) (new_avail : ℚ) (new_actual : Option Int) : Store :=
  let f : Crop → Crop := fun c =>
    { c with available_qty := new_avail, actual_harvest_date := new_actual }
  { s with crops := updateFirst f cid s.crops }

/-- Lines 308-310 of the source: subtract the demanded quantity, then clamp a
negative balance to `0.0`. -/
def consumeQty (q : ℚ) (c : Crop) : Crop :=
  { c with available_qty :=
      if c.available_qty - q < 0 then 0 else c.available_qty - q }

/-- First row of the crops table with the given `crop_id`. -/
def findCrop (crops : List Crop) (cid : Nat) : Option Crop :=
  crops.find? (fun c => c.crop_id = cid)

/-- The inventory-reduction loop of "Finalize Sale": one clamped decrement per
cart item, in cart order.  A cart item whose `crop_id` has no row raises
`IndexError` before anything is saved, modelled as `none`. -/
def reduceInventory : List Crop → List CartItem → Option (List Crop)
  | crops, [] => some crops
  | crops, it :: rest =>
    match findCrop crops it.crop_id with
    | some _ => reduceInventory (updateFirst (consumeQty it.qty) it.crop_id crops) rest
    | none => none

/-- `qty * price_per_unit` of one cart row (line 297). -/
def lineAmount (it : CartItem) : ℚ := it.qty * it.price_per_unit

/-- The `sale_row` dict of lines 315-324: fresh `sale_id`,
`subtotal = Σ qty*price` over the cart, `tax = subtotal * 0.0`,
`total = subtotal + tax`, and the full cart as `items_json`. -/
def sale_row (s : Store) (sale_site : Nat) (cart : List CartItem) (now : Int)
    (receipt_notes : String) : Sale :=
  let subtotal : ℚ := (cart.map lineAmount).sum
  let tax : ℚ := subtotal * tax_rate
  { sale_id := next_id (s.sales.map Sale.sale_id), date := now, site_id := sale_site,
    items_json := cart, subtotal := subtotal, tax := tax, total := subtotal + tax,
    notes := receipt_notes }

/-- "Finalize Sale & Generate Receipt" (lines 304-326).  The button is only
reachable with a non-empty cart and a sale site chosen from the existing
sites.  Reduces inventory (clamping at zero), then appends one sale row. -/
def finalizeSale (s : Store) (sale_site : Nat) (cart : List CartItem)
    (now : Int) (receipt_notes : String) : Option Store :=
  if cart.isEmpty then none
  else if (s.sites.any (fun u => u.site_id = sale_site)) = false then none
  else
    match reduceInventory s.crops cart with
    | none => none
    | some crops2 =>
      some { s with crops := crops2, sales := s.sales ++ [sale_row s sale_site cart now receipt_notes] }

/-- Current `available_qty` of the first row with the given id (0 if absent). -/
def availOf (crops : List Crop) (cid : Nat) : ℚ :=
  match findCrop crops cid with
  | some c => c.available_qty
  | none => 0

/-- Total quantity demanded for one crop across all cart lines. -/
def cartQty (cart : List CartItem) (cid : Nat) : ℚ :=
  ((cart.filter (fun it => it.crop_id = cid)).map CartItem.qty).sum

/-- Round to `p` decimal places, ties away from zero upwards. -/
def round_half_up (x : ℚ) (p : Nat) : ℚ :=
  (Int.floor (x * (10 : ℚ) ^ p + 1 / 2) : ℚ) / (10 : ℚ) ^ p

/-- `days_until` (line 387): days from `today` to the expected harvest date. -/
def days_until (expected today : Int) : Int := expected - today

/-- "Active Crops (not harvested)" (line 385). -/
def activeCrops (crops : List Crop) : List Crop :=
  crops.filter (fun c => c.actual_harvest_date.isNone)

/-- The harvest alert (line 398): active crops whose `days_until_harvest`
lies in the inclusive window `[0, 7]`. -/
def harvestDueSoon (crops : List Crop) (today : Int) : List Crop :=
  (activeCrops crops).filter
    (fun c => decide (0 ≤ days_until c.expected_harvest_date today) &&
      decide (days_until c.expected_harvest_date today ≤ 7))

/-- The mutating operations reachable from the UI. -/
inductive Op where
  | addSiteOp (site_name address phone notes : String)
  | addCropOp (site_id : Nat) (item_name : String)
      (date_planted expected_harvest_date : Int) (actual_harvest_date : Option Int)
      (yield_qty : ℚ) (unit : String) (price_per_unit : ℚ) (notes : String)
  | editCropOp (cid : Nat) (new_avail : ℚ) (new_actual : Option Int)
  | finalizeSaleOp (sale_site : Nat) (cart : List CartItem) (now : Int)
      (receipt_notes : String)
deriving DecidableEq

/-- One committed operation.  The add-crop and edit-crop forms offer only
existing ids in their select boxes, modelled as failure otherwise. -/
def step (s : Store) : Op → Option Store
  | .addSiteOp n a p no => some (addSite s n a p no)
  | .addCropOp site iname dp eh ah yq u ppu no =>
    if s.sites.any (fun t => t.site_id = site) then
      some (addCrop s site iname dp eh ah yq u ppu no)
    else none
  | .editCropOp cid v ad =>
    if s.crops.any (fun c => c.crop_id = cid) then some (editCrop s cid v ad)
    else none
  | .finalizeSaleOp site cart now no => finalizeSale s site cart now no

/-- A committed sequence of operations. -/
def runOps : Store → List Op → Option Store
  | s, [] => some s
  | s, op :: rest =>
    match step s op with
    | some s2 => runOps s2 rest
    | none => none

/-- The bounds enforced by the input widgets (`min_value=0.0` on the yield,
available-quantity and cart-quantity number inputs). -/
def opValid : Op → Bool
  | .addCropOp _ _ _ _ _ yq _ ppu _ => decide (0 ≤ yq) && decide (0 ≤ ppu)
  | .editCropOp _ v _ => decide (0 ≤ v)
  | .finalizeSaleOp _ cart _ _ => cart.all (fun it => decide (0 ≤ it.qty))
  | _ => true

/-- Adjustment applied to crop `cid` by one operation: the edit form sets a
new value, so the applied delta is `new - current`. -/
def adjDelta (s : Store) : Op → Nat → ℚ
  | .editCropOp c v _, cid => if c = cid then v - availOf s.crops c else 0
  | _, _ => 0

/-- Sum of the inventory adjustments applied to crop `cid` along a run. -/
def adjSum : Store → List Op → Nat → ℚ
  | _, [], _ => 0
  | s, op :: rest, cid =>
    adjDelta s op cid +
      (match step s op with
       | some s2 => adjSum s2 rest cid
       | none => 0)

/-- Quantity of crop `cid` sold by one operation. -/
def soldDelta : Op → Nat → ℚ
  | Op.finalizeSaleOp _ cart _ _, cid => cartQty cart cid
  | _, _ => 0

/-- Sum of the quantities sold for crop `cid` across all finalized carts. -/
def soldSum : List Op → Nat → ℚ
  | [], _ => 0
  | op :: rest, cid => soldDelta op cid + soldSum rest cid

/-- A cart never drives any balance below zero when processed sequentially
against the given crops table (so the clamp at line 309 never fires). -/
def cartNoClamp : List Crop → List CartItem → Bool
  | _, [] => true
  | crops, it :: rest =>
    match findCrop crops it.crop_id with
    | some c => decide (it.qty ≤ c.available_qty) &&
        cartNoClamp (updateFirst (consumeQty it.qty) it.crop_id crops) rest
    | none => false

def opNoClamp (s : Store) : Op → Bool
  | .finalizeSaleOp _ cart _ _ => cartNoClamp s.crops cart
  | _ => true

/-- No finalize along the run ever triggers the negative-balance clamp. -/
def opsNoClamp : Store → List Op → Bool
  | _, [] => true
  | s, op :: rest =>
    opNoClamp s op &&
      (match step s op with
       | some s2 => opsNoClamp s2 rest
       | none => true)

/-- All columns of a crop row other than `available_qty` agree. -/
def sameExceptAvail (c c' : Crop) : Prop :=
  c'.crop_id = c.crop_id ∧ c'.site_id = c.site_id ∧ c'.item_name = c.item_name ∧
  c'.date_planted = c.date_planted ∧
  c'.expected_harvest_date = c.expected_harvest_date ∧
  c'.actual_harvest_date = c.actual_harvest_date ∧ c'.yield_qty = c.yield_qty ∧
  c'.unit = c.unit ∧ c'.price_per_unit = c.price_per_unit ∧ c'.notes = c.notes

/-! ### Basic lemmas about the clamped decrement and row lookup -/

theorem consumeQty_crop_id (q : ℚ) (c : Crop) : (consumeQty q c).crop_id = c.crop_id := rfl

theorem consumeQty_avail_nonneg (q : ℚ) (c : Crop) : 0 ≤ (consumeQty q c).available_qty := by
  simp only [consumeQty]
  split
  · exact le_refl 0
  · rename_i h
    exact not_lt.mp h

theorem consumeQty_avail (q : ℚ) (c : Crop) :
    (consumeQty q c).available_qty = max 0 (c.available_qty - q) := by
  simp only [consumeQty]
  rcases lt_or_le (c.available_qty - q) 0 with h | h
  · rw [if_pos h, max_eq_left h.le]
  · rw [if_neg (not_lt.mpr h), max_eq_right h]

theorem sameExceptAvail_refl (c : Crop) : sameExceptAvail c c := by
  unfold sameExceptAvail
  exact ⟨rfl, rfl, rfl, rfl, rfl, rfl, rfl, rfl, rfl, rfl⟩

theorem sameExceptAvail_trans {a b c : Crop} (h1 : sameExceptAvail a b)
    (h2 : sameExceptAvail b c) : sameExceptAvail a c := by
  obtain ⟨e1, e2, e3, e4, e5, e6, e7, e8, e9, e10⟩ := h1
  obtain ⟨g1, g2, g3, g4, g5, g6, g7, g8, g9, g10⟩ := h2
  exact ⟨g1.trans e1, g2.trans e2, g3.trans e3, g4.trans e4, g5.trans e5,
    g6.trans e6, g7.trans e7, g8.trans e8, g9.trans e9, g10.trans e10⟩

theorem sameExceptAvail_consume (q : ℚ) (c : Crop) : sameExceptAvail c (consumeQty q c) :=
  ⟨rfl, rfl, rfl, rfl, rfl, rfl, rfl, rfl, rfl, rfl⟩

theorem findCrop_cons (c : Crop) (rest : List Crop) (cid : Nat) :
    findCrop (c :: rest) cid = if c.crop_id = cid then some c else findCrop rest cid := by
  by_cases h : c.crop_id = cid
  · rw [if_pos h]
    exact List.find?_cons_of_pos _ (by simp [h])
  · rw [if_neg h]
    exact List.find?_cons_of_neg _ (by simp [h])

theorem findCrop_updateFirst_self (f : Crop → Crop) (hf : ∀ c, (f c).crop_id = c.crop_id)
    (cid : Nat) :
    ∀ crops, findCrop (updateFirst f cid crops) cid = (findCrop crops cid).map f
  | [] => rfl
  | c :: rest => by
    by_cases h : c.crop_id = cid
    · simp only [updateFirst, if_pos h, findCrop_cons]
      rw [if_pos (show (f c).crop_id = cid from (hf c).trans h)]
      rfl
    · simp only [updateFirst, if_neg h, findCrop_cons, if_neg h]
      exact findCrop_updateFirst_self f hf cid rest

theorem findCrop_updateFirst_ne (f : Crop → Crop) (hf : ∀ c, (f c).crop_id = c.crop_id)
    (cid cid' : Nat) (hne : cid' ≠ cid) :
    ∀ crops, findCrop (updateFirst f cid crops) cid' = findCrop crops cid'
  | [] => rfl
  | c :: rest => by
    by_cases h : c.crop_id = cid
    · simp only [updateFirst, if_pos h, findCrop_cons]
      rw [if_neg (by rw [hf c, h]; exact fun e => hne e.symm),
        if_neg (fun e => hne (h ▸ e).symm)]
    · simp only [updateFirst, if_neg h, findCrop_cons]
      by_cases h' : c.crop_id = cid'
      · rw [if_pos h', if_pos h']
      · rw [if_neg h', if_neg h']
        exact findCrop_updateFirst_ne f hf cid cid' hne rest

theorem map_crop_id_updateFirst (f : Crop → Crop) (hf : ∀ c, (f c).crop_id = c.crop_id)
    (cid : Nat) :
    ∀ crops, (updateFirst f cid crops).map Crop.crop_id = crops.map Crop.crop_id
  | [] => rfl
  | c :: rest => by
    by_cases h : c.crop_id = cid
    · simp only [updateFirst, if_pos h, List.map_cons, hf c]
    · simp only [updateFirst, if_neg h, List.map_cons,
        map_crop_id_updateFirst f hf cid rest]

theorem mem_updateFirst (f : Crop → Crop) (cid : Nat) :
    ∀ crops c', c' ∈ updateFirst f cid crops → c' ∈ crops ∨ ∃ c ∈ crops, c' = f c
  | [], c', h => by cases h
  | c :: rest, c', h => by
    by_cases hc : c.crop_id = cid
    · simp only [updateFirst, if_pos hc, List.mem_cons] at h
      rcases h with h | h
      · exact Or.inr ⟨c, List.mem_cons_self c rest, h⟩
      · exact Or.inl (List.mem_cons_of_mem c h)
    · simp only [updateFirst, if_neg hc, List.mem_cons] at h
      rcases h with h | h
      · exact Or.inl (h ▸ List.mem_cons_self c rest)
      · rcases mem_updateFirst f cid rest c' h with h' | ⟨d, hd, he⟩
        · exact Or.inl (List.mem_cons_of_mem c h')
        · exact Or.inr ⟨d, List.mem_cons_of_mem c hd, he⟩

/-! ### Lookup of `available_qty` -/

theorem availOf_eq_some (crops : List Crop) (cid : Nat) (c : Crop)
    (h : findCrop crops cid = some c) : availOf crops cid = c.available_qty := by
  unfold availOf
  rw [h]

theorem availOf_updateFirst_consume (crops : List Crop) (cid : Nat) (q : ℚ) (c : Crop)
    (h : findCrop crops cid = some c) :
    availOf (updateFirst (consumeQty q) cid crops) cid = max 0 (c.available_qty - q) := by
  unfold availOf
  rw [findCrop_updateFirst_self _ (consumeQty_crop_id q) cid crops, h]
  exact consumeQty_avail q c

theorem availOf_updateFirst_ne (f : Crop → Crop) (hf : ∀ c, (f c).crop_id = c.crop_id)
    (cid cid' : Nat) (hne : cid' ≠ cid) (crops : List Crop) :
    availOf (updateFirst f cid crops) cid' = availOf crops cid' := by
  unfold availOf
  rw [findCrop_updateFirst_ne f hf cid cid' hne crops]

theorem findCrop_isSome_of_mem (cid : Nat) :
    ∀ crops : List Crop, cid ∈ crops.map Crop.crop_id → ∃ c, findCrop crops cid = some c
  | [], h => by cases h
  | c :: rest, h => by
    by_cases hc : c.crop_id = cid
    · exact ⟨c, by rw [findCrop_cons, if_pos hc]⟩
    · simp only [List.map_cons, List.mem_cons] at h
      rcases h with h | h
      · exact absurd h.symm hc
      · obtain ⟨d, hd⟩ := findCrop_isSome_of_mem cid rest h
        exact ⟨d, by rw [findCrop_cons, if_neg hc, hd]⟩

theorem findCrop_some_mem {crops : List Crop} {cid : Nat} {c : Crop}
    (h : findCrop crops cid = some c) : c ∈ crops ∧ c.crop_id = cid := by
  refine ⟨List.mem_of_find?_eq_some h, ?_⟩
  have := List.find?_some h
  exact of_decide_eq_true this

/-! ### Cart demand -/

theorem cartQty_cons (it : CartItem) (rest : List CartItem) (cid : Nat) :
    cartQty (it :: rest) cid =
      (if it.crop_id = cid then it.qty else 0) + cartQty rest cid := by
  by_cases h : it.crop_id = cid
  · simp [cartQty, List.filter_cons, h]
  · simp [cartQty, List.filter_cons, h]

theorem cartQty_nonneg (cart : List CartItem) (cid : Nat)
    (h : ∀ it ∈ cart, 0 ≤ it.qty) : 0 ≤ cartQty cart cid := by
  induction cart with
  | nil => exact le_refl 0
  | cons it rest ih =>
    rw [cartQty_cons]
    have h1 : (0:ℚ) ≤ if it.crop_id = cid then it.qty else 0 := by
      split
      · exact h it (List.mem_cons_self it rest)
      · exact le_refl 0
    have h2 := ih (fun x hx => h x (List.mem_cons_of_mem it hx))
    linarith

theorem cartQty_of_not_mem (cart : List CartItem) (cid : Nat)
    (h : cid ∉ cart.map CartItem.crop_id) : cartQty cart cid = 0 := by
  induction cart with
  | nil => rfl
  | cons it rest ih =>
    rw [cartQty_cons]
    simp only [List.map_cons, List.mem_cons] at h
    push_neg at h
    rw [if_neg (fun e => h.1 e.symm), ih h.2, zero_add]

theorem max_zero_sub_collapse (x y : ℚ) (hy : 0 ≤ y) :
    max 0 (max 0 x - y) = max 0 (x - y) := by
  rcases le_total 0 x with h | h
  · rw [max_eq_right h]
  · rw [max_eq_left h, max_eq_left (show 0 - y ≤ 0 by linarith),
      max_eq_left (show x - y ≤ 0 by linarith)]

/-! ### The inventory-reduction loop -/

theorem reduceInventory_ids : ∀ (cart : List CartItem) (crops crops2 : List Crop),
    reduceInventory crops cart = some crops2 →
    crops2.map Crop.crop_id = crops.map Crop.crop_id
  | [], crops, crops2, h => by
    simp only [reduceInventory, Option.some.injEq] at h
    subst h
    rfl
  | it :: rest, crops, crops2, h => by
    cases hf : findCrop crops it.crop_id with
    | none =>
      simp only [reduceInventory, hf] at h
      exact Option.noConfusion h
    | some c =>
      simp only [reduceInventory, hf] at h
      rw [reduceInventory_ids rest _ crops2 h,
        map_crop_id_updateFirst _ (consumeQty_crop_id it.qty) _ crops]

theorem reduceInventory_isSome : ∀ (cart : List CartItem) (crops : List Crop),
    (∀ it ∈ cart, it.crop_id ∈ crops.map Crop.crop_id) →
    ∃ crops2, reduceInventory crops cart = some crops2
  | [], crops, _ => ⟨crops, rfl⟩
  | it :: rest, crops, h => by
    obtain ⟨c, hc⟩ := findCrop_isSome_of_mem it.crop_id crops
      (h it (List.mem_cons_self it rest))
    have hrest : ∀ x ∈ rest, x.crop_id ∈
        (updateFirst (consumeQty it.qty) it.crop_id crops).map Crop.crop_id := by
      intro x hx
      rw [map_crop_id_updateFirst _ (consumeQty_crop_id it.qty) _ crops]
      exact h x (List.mem_cons_of_mem it hx)
    obtain ⟨crops2, h2⟩ := reduceInventory_isSome rest _ hrest
    exact ⟨crops2, by simp only [reduceInventory, hc]; exact h2⟩

theorem reduceInventory_cart_ids : ∀ (cart : List CartItem) (crops crops2 : List Crop),
    reduceInventory crops cart = some crops2 →
    ∀ it ∈ cart, it.crop_id ∈ crops.map Crop.crop_id
  | [], _, _, _, it, hit => by cases hit
  | it :: rest, crops, crops2, h, x, hx => by
    cases hf : findCrop crops it.crop_id with
    | none =>
      simp only [reduceInventory, hf] at h
      exact Option.noConfusion h
    | some c =>
      simp only [reduceInventory, hf] at h
      rcases List.mem_cons.mp hx with hx | hx
      · subst hx
        obtain ⟨hmem, hid⟩ := findCrop_some_mem hf
        exact hid ▸ List.mem_map_of_mem Crop.crop_id hmem
      · have := reduceInventory_cart_ids rest _ crops2 h x hx
        rwa [map_crop_id_updateFirst _ (consumeQty_crop_id it.qty) _ crops] at this

theorem reduceInventory_avail :
    ∀ (cart : List CartItem) (crops crops2 : List Crop) (cid : Nat),
    reduceInventory crops cart = some crops2 →
    (∀ it ∈ cart, 0 ≤ it.qty) →
    (cid ∈ cart.map CartItem.crop_id →
      availOf crops2 cid = max 0 (availOf crops cid - cartQty cart cid)) ∧
    (cid ∉ cart.map CartItem.crop_id → availOf crops2 cid = availOf crops cid)
  | [], crops, crops2, cid, h, _ => by
    simp only [reduceInventory, Option.some.injEq] at h
    subst h
    exact ⟨fun hm => absurd hm (by simp), fun _ => rfl⟩
  | it :: rest, crops, crops2, cid, h, hq => by
    cases hf : findCrop crops it.crop_id with
    | none =>
      simp only [reduceInventory, hf] at h
      exact Option.noConfusion h
    | some c =>
      simp only [reduceInventory, hf] at h
      have hq' : ∀ x ∈ rest, 0 ≤ x.qty := fun x hx => hq x (List.mem_cons_of_mem it hx)
      have ih := reduceInventory_avail rest _ crops2 cid h hq'
      constructor
      · intro hm
        rw [cartQty_cons]
        by_cases hcid : it.crop_id = cid
        · subst hcid
          have havail : availOf (updateFirst (consumeQty it.qty) it.crop_id crops)
              it.crop_id = max 0 (availOf crops it.crop_id - it.qty) := by
            rw [availOf_updateFirst_consume crops it.crop_id it.qty c hf,
              availOf_eq_some crops it.crop_id c hf]
          by_cases hr : it.crop_id ∈ rest.map CartItem.crop_id
          · rw [ih.1 hr, havail, if_pos rfl,
              max_zero_sub_collapse _ _ (cartQty_nonneg rest _ hq'), sub_sub]
          · rw [ih.2 hr, havail, if_pos rfl, cartQty_of_not_mem rest _ hr, add_zero]
        · have havail : availOf (updateFirst (consumeQty it.qty) it.crop_id crops) cid
              = availOf crops cid :=
            availOf_updateFirst_ne _ (consumeQty_crop_id it.qty) _ _
              (fun e => hcid e.symm) crops
          have hr : cid ∈ rest.map CartItem.crop_id := by
            simp only [List.map_cons, List.mem_cons] at hm
            rcases hm with hm | hm
            · exact absurd hm.symm hcid
            · exact hm
          rw [ih.1 hr, havail, if_neg hcid, zero_add]
      · intro hm
        simp only [List.map_cons, List.mem_cons] at hm
        push_neg at hm
        have havail := availOf_updateFirst_ne _ (consumeQty_crop_id it.qty) _ _
          hm.1 crops
        rw [ih.2 hm.2, havail]

theorem reduceInventory_nonneg :
    ∀ (cart : List CartItem) (crops crops2 : List Crop),
    (∀ c ∈ crops, 0 ≤ c.available_qty) →
    reduceInventory crops cart = some crops2 →
    ∀ c ∈ crops2, 0 ≤ c.available_qty
  | [], crops, crops2, hc, h => by
    simp only [reduceInventory, Option.some.injEq] at h
    subst h
    exact hc
  | it :: rest, crops, crops2, hc, h => by
    cases hf : findCrop crops it.crop_id with
    | none =>
      simp only [reduceInventory, hf] at h
      exact Option.noConfusion h
    | some c =>
      simp only [reduceInventory, hf] at h
      refine reduceInventory_nonneg rest _ crops2 ?_ h
      intro d hd
      rcases mem_updateFirst _ _ crops d hd with hd' | ⟨e, _, he⟩
      · exact hc d hd'
      · exact he ▸ consumeQty_avail_nonneg it.qty e

/-! ### Frame of the reduction loop -/

theorem forall2_compose {α β γ : Type _} {Q : α → β → Prop} {P : β → γ → Prop} :
    ∀ {l : List α} {m : List β} {n : List γ}, List.Forall₂ Q l m → List.Forall₂ P m n →
      List.Forall₂ (fun a c => ∃ b, Q a b ∧ P b c) l n := by
  intro l m n h1
  induction h1 generalizing n with
  | nil =>
    intro h2
    cases h2
    exact List.Forall₂.nil
  | cons hq _ ih =>
    intro h2
    cases h2 with
    | cons hp htail => exact List.Forall₂.cons ⟨_, hq, hp⟩ (ih htail)

theorem updateFirst_forall2 (f : Crop → Crop) (cid : Nat) :
    ∀ crops, List.Forall₂ (fun c c' => (c.crop_id = cid ∧ c' = f c) ∨ c' = c)
      crops (updateFirst f cid crops)
  | [] => List.Forall₂.nil
  | c :: rest => by
    by_cases h : c.crop_id = cid
    · simp only [updateFirst, if_pos h]
      exact List.Forall₂.cons (Or.inl ⟨h, rfl⟩)
        (List.forall₂_same.mpr (fun x _ => Or.inr rfl))
    · simp only [updateFirst, if_neg h]
      exact List.Forall₂.cons (Or.inr rfl) (updateFirst_forall2 f cid rest)

theorem reduceInventory_frame :
    ∀ (cart : List CartItem) (crops crops2 : List Crop),
    reduceInventory crops cart = some crops2 →
    List.Forall₂ (fun c c' => sameExceptAvail c c' ∧
      (c.crop_id ∉ cart.map CartItem.crop_id → c' = c)) crops crops2
  | [], crops, crops2, h => by
    simp only [reduceInventory, Option.some.injEq] at h
    subst h
    exact List.forall₂_same.mpr (fun c _ => ⟨sameExceptAvail_refl c, fun _ => rfl⟩)
  | it :: rest, crops, crops2, h => by
    cases hf : findCrop crops it.crop_id with
    | none =>
      simp only [reduceInventory, hf] at h
      exact Option.noConfusion h
    | some c =>
      simp only [reduceInventory, hf] at h
      have h1 := updateFirst_forall2 (consumeQty it.qty) it.crop_id crops
      have h2 := reduceInventory_frame rest _ crops2 h
      refine List.Forall₂.imp ?_ (forall2_compose h1 h2)
      rintro a c' ⟨b, hq, hp⟩
      rcases hq with ⟨hid, rfl⟩ | rfl
      · refine ⟨sameExceptAvail_trans (sameExceptAvail_consume it.qty a) hp.1, ?_⟩
        intro hnot
        exfalso
        apply hnot
        rw [List.map_cons, ← hid]
        exact List.mem_cons_self _ _
      · refine ⟨hp.1, fun hnot => hp.2 ?_⟩
        intro hmem
        apply hnot
        rw [List.map_cons]
        exact List.mem_cons_of_mem _ hmem

/-! ### When no clamp fires, the loop subtracts exactly the demand -/

theorem cartNoClamp_reduce :
    ∀ (cart : List CartItem) (crops : List Crop),
    cartNoClamp crops cart = true →
    ∃ crops2, reduceInventory crops cart = some crops2 ∧
      ∀ cid, availOf crops2 cid = availOf crops cid - cartQty cart cid
  | [], crops, _ =>
    ⟨crops, rfl, fun cid => by rw [show cartQty [] cid = 0 from rfl, sub_zero]⟩
  | it :: rest, crops, h => by
    cases hf : findCrop crops it.crop_id with
    | none =>
      simp only [cartNoClamp, hf] at h
      exact Bool.noConfusion h
    | some c =>
      simp only [cartNoClamp, hf, Bool.and_eq_true, decide_eq_true_eq] at h
      obtain ⟨hle, hrest⟩ := h
      obtain ⟨crops2, h2, havail⟩ := cartNoClamp_reduce rest _ hrest
      refine ⟨crops2, ?_, ?_⟩
      · simp only [reduceInventory, hf]
        exact h2
      · intro cid
        rw [havail cid, cartQty_cons]
        by_cases hcid : it.crop_id = cid
        · subst hcid
          rw [availOf_updateFirst_consume crops it.crop_id it.qty c hf, if_pos rfl,
            availOf_eq_some crops it.crop_id c hf,
            max_eq_right (show (0:ℚ) ≤ c.available_qty - it.qty by linarith), sub_sub]
        · rw [availOf_updateFirst_ne _ (consumeQty_crop_id it.qty) _ _
            (fun e => hcid e.symm) crops, if_neg hcid, zero_add]

/-! ### Identifier assignment -/

theorem init_le_foldl_max : ∀ (l : List Nat) (i : Nat), i ≤ l.foldl max i
  | [], i => le_refl i
  | a :: l, i => le_trans (le_max_left i a) (init_le_foldl_max l (max i a))

theorem mem_le_foldl_max : ∀ (l : List Nat) (i a : Nat), a ∈ l → a ≤ l.foldl max i
  | [], _, _, h => absurd h (List.not_mem_nil _)
  | b :: l, i, a, h => by
    rcases List.mem_cons.mp h with h | h
    · subst h
      exact le_trans (le_max_right i a) (init_le_foldl_max l (max i a))
    · exact mem_le_foldl_max l (max i b) a h

theorem lt_next_id : ∀ {ids : List Nat} {a : Nat}, a ∈ ids → a < next_id ids
  | [], _, h => absurd h (List.not_mem_nil _)
  | b :: l, a, h => by
    have hle : a ≤ (b :: l).foldl max 0 := mem_le_foldl_max (b :: l) 0 a h
    simp only [next_id, List.isEmpty_cons, Bool.false_eq_true, if_false]
    omega

theorem next_id_not_mem (ids : List Nat) : next_id ids ∉ ids :=
  fun h => absurd (lt_next_id h) (lt_irrefl _)

theorem pairwise_append_next_id (l : List Nat) (h : List.Pairwise (· < ·) l) :
    List.Pairwise (· < ·) (l ++ [next_id l]) := by
  rw [List.pairwise_append]
  refine ⟨h, List.pairwise_singleton _ _, ?_⟩
  intro a ha b hb
  rw [List.mem_singleton] at hb
  subst hb
  exact lt_next_id ha

/-! ### Lookup under unique identifiers -/

theorem findCrop_mem_nodup : ∀ (crops : List Crop),
    (crops.map Crop.crop_id).Nodup →
    ∀ c ∈ crops, findCrop crops c.crop_id = some c
  | [], _, c, hc => absurd hc (List.not_mem_nil c)
  | d :: rest, hnd, c, hc => by
    rw [List.map_cons, List.nodup_cons] at hnd
    rcases List.mem_cons.mp hc with rfl | hc
    · rw [findCrop_cons, if_pos rfl]
    · have hne : d.crop_id ≠ c.crop_id := by
        intro e
        exact hnd.1 (e ▸ List.mem_map_of_mem Crop.crop_id hc)
      rw [findCrop_cons, if_neg hne]
      exact findCrop_mem_nodup rest hnd.2 c hc

theorem availOf_mem_nodup (crops : List Crop) (hnd : (crops.map Crop.crop_id).Nodup)
    (c : Crop) (hc : c ∈ crops) : availOf crops c.crop_id = c.available_qty :=
  availOf_eq_some crops c.crop_id c (findCrop_mem_nodup crops hnd c hc)

theorem mem_updateFirst_nodup (f : Crop → Crop) (cid : Nat) :
    ∀ (crops : List Crop), (crops.map Crop.crop_id).Nodup →
    ∀ c' ∈ updateFirst f cid crops,
      (∃ c ∈ crops, c.crop_id = cid ∧ c' = f c) ∨ (c' ∈ crops ∧ c'.crop_id ≠ cid)
  | [], _, c', h => absurd h (List.not_mem_nil c')
  | c :: rest, hnd, c', h => by
    rw [List.map_cons, List.nodup_cons] at hnd
    by_cases hc : c.crop_id = cid
    · simp only [updateFirst, if_pos hc, List.mem_cons] at h
      rcases h with h | h
      · exact Or.inl ⟨c, List.mem_cons_self c rest, hc, h⟩
      · refine Or.inr ⟨List.mem_cons_of_mem c h, ?_⟩
        intro e
        apply hnd.1
        have hm := List.mem_map_of_mem Crop.crop_id h
        rwa [e, ← hc] at hm
    · simp only [updateFirst, if_neg hc, List.mem_cons] at h
      rcases h with rfl | h
      · exact Or.inr ⟨List.mem_cons_self c' rest, hc⟩
      · rcases mem_updateFirst_nodup f cid rest hnd.2 c' h with ⟨d, hd, he, hg⟩ | ⟨h1, h2⟩
        · exact Or.inl ⟨d, List.mem_cons_of_mem c hd, he, hg⟩
        · exact Or.inr ⟨List.mem_cons_of_mem c h1, h2⟩

theorem forall2_mem_right {α β : Type _} {R : α → β → Prop} :
    ∀ {l : List α} {m : List β}, List.Forall₂ R l m → ∀ b ∈ m, ∃ a ∈ l, R a b := by
  intro l m h
  induction h with
  | nil => intro b hb; cases hb
  | cons hr _ ih =>
    intro b hb
    rcases List.mem_cons.mp hb with rfl | hb
    · exact ⟨_, List.mem_cons_self _ _, hr⟩
    · obtain ⟨a, ha, hab⟩ := ih b hb
      exact ⟨a, List.mem_cons_of_mem _ ha, hab⟩

/-! ### Shape of a committed finalize -/

theorem finalizeSale_elim {s : Store} {site : Nat} {cart : List CartItem} {now : Int}
    {no : String} {t : Store} (h : finalizeSale s site cart now no = some t) :
    ∃ crops2, reduceInventory s.crops cart = some crops2 ∧
      t.sites = s.sites ∧ t.crops = crops2 ∧
      t.sales = s.sales ++ [sale_row s site cart now no] := by
  unfold finalizeSale at h
  cases hic : cart.isEmpty with
  | true =>
    rw [if_pos hic] at h
    exact Option.noConfusion h
  | false =>
    rw [if_neg (by rw [hic]; exact Bool.noConfusion)] at h
    cases hsite : s.sites.any (fun u => u.site_id = site) with
    | false =>
      rw [if_pos hsite] at h
      exact Option.noConfusion h
    | true =>
      rw [if_neg (by rw [hsite]; exact fun e => Bool.noConfusion e)] at h
      cases hr : reduceInventory s.crops cart with
      | none =>
        rw [hr] at h
        exact Option.noConfusion h
      | some crops2 =>
        rw [hr] at h
        rw [Option.some.injEq] at h
        subst h
        exact ⟨crops2, rfl, rfl, rfl, rfl⟩

theorem finalizeSale_intro {s : Store} {site : Nat} {cart : List CartItem} {now : Int}
    {no : String} {crops2 : List Crop} (hne : cart ≠ [])
    (hsite : s.sites.any (fun u => u.site_id = site) = true)
    (hr : reduceInventory s.crops cart = some crops2) :
    finalizeSale s site cart now no =
      some { s with crops := crops2, sales := s.sales ++ [sale_row s site cart now no] } := by
  unfold finalizeSale
  have hic : cart.isEmpty = false := by
    cases cart with
    | nil => exact absurd rfl hne
    | cons a l => rfl
  rw [if_neg (by rw [hic]; exact Bool.noConfusion),
    if_neg (by rw [hsite]; exact fun e => Bool.noConfusion e), hr]

/-! ### Per-operation preservation lemmas -/

theorem step_crops_nodup {s s2 : Store} {op : Op} (h : step s op = some s2)
    (hnd : (s.crops.map Crop.crop_id).Nodup) : (s2.crops.map Crop.crop_id).Nodup := by
  cases op with
  | addSiteOp n a p q =>
    simp only [step, Option.some.injEq] at h
    subst h
    exact hnd
  | addCropOp site iname dp eh ah yq u ppu no =>
    simp only [step] at h
    split at h
    · rw [Option.some.injEq] at h
      subst h
      show ((s.crops ++ [_]).map Crop.crop_id).Nodup
      rw [List.map_append, List.nodup_append]
      refine ⟨hnd, List.nodup_singleton _, ?_⟩
      intro a ha hb
      rw [List.map_singleton, List.mem_singleton] at hb
      subst hb
      exact next_id_not_mem _ ha
    · exact Option.noConfusion h
  | editCropOp cid v ad =>
    simp only [step] at h
    split at h
    · rw [Option.some.injEq] at h
      subst h
      show ((updateFirst _ cid s.crops).map Crop.crop_id).Nodup
      rw [map_crop_id_updateFirst
        (fun c => { c with available_qty := v, actual_harvest_date := ad })
        (fun c => rfl) cid s.crops]
      exact hnd
    · exact Option.noConfusion h
  | finalizeSaleOp site cart now no =>
    simp only [step] at h
    obtain ⟨crops2, hr, _, hcrops, _⟩ := finalizeSale_elim h
    rw [hcrops, reduceInventory_ids cart s.crops crops2 hr]
    exact hnd

theorem step_sale_ids {s s2 : Store} {op : Op} (h : step s op = some s2) :
    s2.sales.map Sale.sale_id = s.sales.map Sale.sale_id ∨
    s2.sales.map Sale.sale_id =
      s.sales.map Sale.sale_id ++ [next_id (s.sales.map Sale.sale_id)] := by
  cases op with
  | addSiteOp n a p q =>
    simp only [step, Option.some.injEq] at h
    subst h
    exact Or.inl rfl
  | addCropOp site iname dp eh ah yq u ppu no =>
    simp only [step] at h
    split at h
    · rw [Option.some.injEq] at h
      subst h
      exact Or.inl rfl
    · exact Option.noConfusion h
  | editCropOp cid v ad =>
    simp only [step] at h
    split at h
    · rw [Option.some.injEq] at h
      subst h
      exact Or.inl rfl
    · exact Option.noConfusion h
  | finalizeSaleOp site cart now no =>
    simp only [step] at h
    obtain ⟨crops2, _, _, _, hsales⟩ := finalizeSale_elim h
    refine Or.inr ?_
    rw [hsales, List.map_append, List.map_singleton]
    rfl

theorem runOps_sale_ids_pairwise : ∀ (ops : List Op) (s t : Store),
    List.Pairwise (· < ·) (s.sales.map Sale.sale_id) →
    runOps s ops = some t → List.Pairwise (· < ·) (t.sales.map Sale.sale_id)
  | [], s, t, hp, h => by
    simp only [runOps, Option.some.injEq] at h
    subst h
    exact hp
  | op :: rest, s, t, hp, h => by
    cases hs : step s op with
    | none =>
      simp only [runOps, hs] at h
      exact Option.noConfusion h
    | some s2 =>
      simp only [runOps, hs] at h
      rcases step_sale_ids hs with he | he
      · refine runOps_sale_ids_pairwise rest s2 t ?_ h
        rw [he]
        exact hp
      · refine runOps_sale_ids_pairwise rest s2 t ?_ h
        rw [he]
        exact pairwise_append_next_id _ hp

/-! ### Non-negative balances along committed runs -/

theorem step_avail_nonneg {s s2 : Store} {op : Op} (hv : opValid op = true)
    (hc : ∀ c ∈ s.crops, 0 ≤ c.available_qty) (h : step s op = some s2) :
    ∀ c ∈ s2.crops, 0 ≤ c.available_qty := by
  cases op with
  | addSiteOp n a p q =>
    simp only [step, Option.some.injEq] at h
    subst h
    exact hc
  | addCropOp site iname dp eh ah yq u ppu no =>
    simp only [opValid, Bool.and_eq_true, decide_eq_true_eq] at hv
    simp only [step] at h
    split at h
    · rw [Option.some.injEq] at h
      subst h
      intro c hcm
      rcases List.mem_append.mp hcm with hcm | hcm
      · exact hc c hcm
      · rw [List.mem_singleton] at hcm
        subst hcm
        exact hv.1
    · exact Option.noConfusion h
  | editCropOp cid v ad =>
    simp only [opValid, decide_eq_true_eq] at hv
    simp only [step] at h
    split at h
    · rw [Option.some.injEq] at h
      subst h
      intro c hcm
      rcases mem_updateFirst _ _ s.crops c hcm with hcm | ⟨d, hd, he⟩
      · exact hc c hcm
      · subst he
        exact hv
    · exact Option.noConfusion h
  | finalizeSaleOp site cart now no =>
    simp only [step] at h
    obtain ⟨crops2, hr, _, hcrops, _⟩ := finalizeSale_elim h
    intro c hcm
    rw [hcrops] at hcm
    exact reduceInventory_nonneg cart s.crops crops2 hc hr c hcm

theorem runOps_avail_nonneg : ∀ (ops : List Op) (s t : Store),
    ops.all opValid = true → (∀ c ∈ s.crops, 0 ≤ c.available_qty) →
    runOps s ops = some t → ∀ c ∈ t.crops, 0 ≤ c.available_qty
  | [], s, t, _, hc, h => by
    simp only [runOps, Option.some.injEq] at h
    subst h
    exact hc
  | op :: rest, s, t, hv, hc, h => by
    rw [List.all_cons, Bool.and_eq_true] at hv
    cases hs : step s op with
    | none =>
      simp only [runOps, hs] at h
      exact Option.noConfusion h
    | some s2 =>
      simp only [runOps, hs] at h
      exact runOps_avail_nonneg rest s2 t hv.2 (step_avail_nonneg hv.1 hc hs) h

/-! ### Conservation of stock along clamp-free committed runs -/

theorem conservation_aux : ∀ (ops : List Op) (s t : Store) (B : Nat → ℚ),
    (s.crops.map Crop.crop_id).Nodup →
    (∀ c ∈ s.crops, c.available_qty = c.yield_qty + B c.crop_id) →
    (∀ cid, cid ∉ s.crops.map Crop.crop_id → B cid = 0) →
    runOps s ops = some t → opsNoClamp s ops = true →
    ∀ c ∈ t.crops,
      c.available_qty =
        c.yield_qty + B c.crop_id + adjSum s ops c.crop_id - soldSum ops c.crop_id
  | [], s, t, B, _, hB, _, h, _ => by
    simp only [runOps, Option.some.injEq] at h
    subst h
    intro c hc
    rw [show adjSum s [] c.crop_id = 0 from rfl, show soldSum [] c.crop_id = 0 from rfl,
      add_zero, sub_zero]
    exact hB c hc
  | op :: rest, s, t, B, hnd, hB, hB0, h, hnc => by
    cases hs : step s op with
    | none =>
      simp only [runOps, hs] at h
      exact Option.noConfusion h
    | some s2 =>
      simp only [runOps, hs] at h
      simp only [opsNoClamp, hs, Bool.and_eq_true] at hnc
      have hnd2 := step_crops_nodup hs hnd
      have key : (∀ d ∈ s2.crops, d.available_qty =
            d.yield_qty + (B d.crop_id + adjDelta s op d.crop_id -
              soldDelta op d.crop_id)) ∧
          (∀ x, x ∉ s2.crops.map Crop.crop_id →
            B x + adjDelta s op x - soldDelta op x = 0) := by
        cases op with
        | addSiteOp n a p q =>
          simp only [step, Option.some.injEq] at hs
          subst hs
          constructor
          · intro d hd
            have := hB d hd
            simp only [adjDelta, soldDelta]
            linarith
          · intro x hx
            have := hB0 x hx
            simp only [adjDelta, soldDelta]
            linarith
        | addCropOp site iname dp eh ah yq u ppu no =>
          simp only [step] at hs
          by_cases hcond : (s.sites.any fun u => u.site_id = site) = true
          · rw [if_pos hcond, Option.some.injEq] at hs
            subst hs
            constructor
            · intro d hd
              simp only [adjDelta, soldDelta]
              rcases List.mem_append.mp hd with hd | hd
              · have := hB d hd
                linarith
              · rw [List.mem_singleton] at hd
                subst hd
                have hzero : B (next_id (s.crops.map Crop.crop_id)) = 0 :=
                  hB0 _ (next_id_not_mem _)
                show yq = yq + _
                rw [hzero]
                ring
            · intro x hx
              simp only [adjDelta, soldDelta]
              have hx' : x ∉ s.crops.map Crop.crop_id := by
                intro hm
                apply hx
                show x ∈ (s.crops ++ [_]).map Crop.crop_id
                rw [List.map_append]
                exact List.mem_append_left _ hm
              have := hB0 x hx'
              linarith
          · rw [if_neg hcond] at hs
            exact Option.noConfusion hs
        | editCropOp cid0 v ad =>
          simp only [step] at hs
          by_cases hcond : (s.crops.any fun c => c.crop_id = cid0) = true
          · rw [if_pos hcond, Option.some.injEq] at hs
            subst hs
            have hcid0_mem : cid0 ∈ s.crops.map Crop.crop_id := by
              rw [List.any_eq_true] at hcond
              obtain ⟨d, hd, he⟩ := hcond
              rw [decide_eq_true_eq] at he
              exact he ▸ List.mem_map_of_mem Crop.crop_id hd
            constructor
            · intro d hd
              simp only [adjDelta, soldDelta]
              rcases mem_updateFirst_nodup _ cid0 s.crops hnd d hd with
                ⟨e, he, heid, hde⟩ | ⟨hd1, hd2⟩
              · subst hde
                show v = e.yield_qty + (B e.crop_id +
                  (if cid0 = e.crop_id then v - availOf s.crops cid0 else 0) - 0)
                rw [if_pos heid.symm]
                have h1 : availOf s.crops cid0 = e.available_qty := by
                  rw [← heid]
                  exact availOf_mem_nodup s.crops hnd e he
                have h2 := hB e he
                rw [h1, heid]
                rw [heid] at h2
                linarith
              · rw [if_neg (fun e => hd2 e.symm)]
                have := hB d hd1
                linarith
            · intro x hx
              simp only [adjDelta, soldDelta]
              have hx' : x ∉ s.crops.map Crop.crop_id := by
                intro hm
                apply hx
                show x ∈ ((updateFirst _ cid0 s.crops).map Crop.crop_id)
                rw [map_crop_id_updateFirst
                  (fun c => { c with available_qty := v, actual_harvest_date := ad })
                  (fun c => rfl) cid0 s.crops]
                exact hm
              have hxne : cid0 ≠ x := fun e => hx' (e ▸ hcid0_mem)
              rw [if_neg hxne]
              have := hB0 x hx'
              linarith
          · rw [if_neg hcond] at hs
            exact Option.noConfusion hs
        | finalizeSaleOp site cart now no =>
          simp only [step] at hs
          obtain ⟨crops2, hr, _, hcrops, _⟩ := finalizeSale_elim hs
          have hclamp : cartNoClamp s.crops cart = true := hnc.1
          obtain ⟨crops2', hr', havail⟩ := cartNoClamp_reduce cart s.crops hclamp
          rw [hr] at hr'
          rw [Option.some.injEq] at hr'
          subst hr'
          have hnd2' : (crops2.map Crop.crop_id).Nodup := by
            rw [reduceInventory_ids cart s.crops crops2 hr]
            exact hnd
          constructor
          · intro d hd
            rw [hcrops] at hd
            simp only [adjDelta, soldDelta]
            obtain ⟨a, ha, hsame, _⟩ :=
              forall2_mem_right (reduceInventory_frame cart s.crops crops2 hr) d hd
            have hid : d.crop_id = a.crop_id := hsame.1
            have hyield : d.yield_qty = a.yield_qty := hsame.2.2.2.2.2.2.1
            have h1 : d.available_qty = availOf crops2 d.crop_id :=
              (availOf_mem_nodup crops2 hnd2' d hd).symm
            have h2 : availOf s.crops d.crop_id = a.available_qty := by
              rw [hid]
              exact availOf_mem_nodup s.crops hnd a ha
            have h3 := hB a ha
            have h4 := havail d.crop_id
            rw [h2] at h4
            rw [← hid] at h3
            linarith [hyield]
          · intro x hx
            rw [hcrops, reduceInventory_ids cart s.crops crops2 hr] at hx
            simp only [adjDelta, soldDelta]
            have hxc : x ∉ cart.map CartItem.crop_id := by
              intro hm
              obtain ⟨it, hit, he⟩ := List.mem_map.mp hm
              apply hx
              rw [← he]
              exact reduceInventory_cart_ids cart s.crops crops2 hr it hit
            rw [cartQty_of_not_mem cart x hxc]
            have := hB0 x hx
            linarith
      have ih := conservation_aux rest s2 t
        (fun x => B x + adjDelta s op x - soldDelta op x) hnd2 key.1 key.2 h hnc.2
      intro c hc
      have ihc : c.available_qty =
          c.yield_qty + (B c.crop_id + adjDelta s op c.crop_id -
            soldDelta op c.crop_id) + adjSum s2 rest c.crop_id -
          soldSum rest c.crop_id := ih c hc
      have ha : adjSum s (op :: rest) c.crop_id =
          adjDelta s op c.crop_id + adjSum s2 rest c.crop_id := by
        simp only [adjSum, hs]
      have hso : soldSum (op :: rest) c.crop_id =
          soldDelta op c.crop_id + soldSum rest c.crop_id := rfl
      rw [ha, hso]
      linarith [ihc]

/-! ### Facts about the persisted sale row -/

theorem sale_row_subtotal (s : Store) (site : Nat) (cart : List CartItem) (now : Int)
    (no : String) : (sale_row s site cart now no).subtotal = (cart.map lineAmount).sum := rfl

theorem sale_row_tax (s : Store) (site : Nat) (cart : List CartItem) (now : Int)
    (no : String) :
    (sale_row s site cart now no).tax = (cart.map lineAmount).sum * tax_rate := rfl

theorem sale_row_total (s : Store) (site : Nat) (cart : List CartItem) (now : Int)
    (no : String) : (sale_row s site cart now no).total =
      (sale_row s site cart now no).subtotal + (sale_row s site cart now no).tax := rfl

theorem sale_row_items (s : Store) (site : Nat) (cart : List CartItem) (now : Int)
    (no : String) : (sale_row s site cart now no).items_json = cart := rfl

/-! ### Concrete scenario data (spec scenarios S1-S6) -/

def siteField : Site :=
  { site_id := 1, site_name := "North Field", address := "", phone := "", notes := "" }

def siteMarket : Site :=
  { site_id := 2, site_name := "Saturday Market", address := "", phone := "", notes := "" }

def crop10 : Crop :=
  { crop_id := 10, site_id := 1, item_name := "Tomato", date_planted := 0,
    expected_harvest_date := 90, actual_harvest_date := some 90, yield_qty := 20,
    unit := "kg", price_per_unit := 3, notes := "", available_qty := 20 }

def store0 : Store := { sites := [siteField, siteMarket], crops := [crop10], sales := [] }

def storeF : Store := { sites := [siteField], crops := [crop10], sales := [] }

def item4 : CartItem :=
  { crop_id := 10, item_name := "Tomato", qty := 4, unit := "kg", price_per_unit := 3 }

def item25 : CartItem :=
  { crop_id := 10, item_name := "Tomato", qty := 25, unit := "kg", price_per_unit := 3 }

def itemW : CartItem :=
  { crop_id := 1, item_name := "Tomato", qty := 4, unit := "kg", price_per_unit := 3 }

def opsW : List Op :=
  [Op.addSiteOp "North Field" "" "" "",
   Op.addCropOp 1 "Tomato" 0 90 (some 90) 20 "kg" 3 "",
   Op.finalizeSaleOp 1 [itemW] 0 "",
   Op.finalizeSaleOp 1 [itemW] 0 ""]

def tW : Store := (runOps emptyStore opsW).getD emptyStore

def cropW : Crop :=
  { crop_id := 1, site_id := 1, item_name := "Tomato", date_planted := 0,
    expected_harvest_date := 90, actual_harvest_date := some 90, yield_qty := 20,
    unit := "kg", price_per_unit := 3, notes := "", available_qty := 12 }

def itemC2 : CartItem :=
  { crop_id := 1, item_name := "Tomato", qty := 25, unit := "kg", price_per_unit := 3 }

def opsC2 : List Op :=
  [Op.addSiteOp "North Field" "" "" "",
   Op.addCropOp 1 "Tomato" 0 90 (some 90) 20 "kg" 3 "",
   Op.finalizeSaleOp 1 [itemC2] 0 ""]

def t0 : Store := (finalizeSale store0 2 [item4] 0 "").getD emptyStore

def storeS : Store := { sites := [siteField], crops := [], sales := [] }

def cropH1 : Crop :=
  { crop_id := 1, site_id := 1, item_name := "a", date_planted := 0,
    expected_harvest_date := 103, actual_harvest_date := none, yield_qty := 0,
    unit := "kg", price_per_unit := 0, notes := "", available_qty := 0 }

def cropH2 : Crop :=
  { crop_id := 2, site_id := 1, item_name := "b", date_planted := 0,
    expected_harvest_date := 110, actual_harvest_date := none, yield_qty := 0,
    unit := "kg", price_per_unit := 0, notes := "", available_qty := 0 }

def cropH3 : Crop :=
  { crop_id := 3, site_id := 1, item_name := "c", date_planted := 0,
    expected_harvest_date := 99, actual_harvest_date := none, yield_qty := 0,
    unit := "kg", price_per_unit := 0, notes := "", available_qty := 0 }

def crops3 : List Crop := [cropH1, cropH2, cropH3]

/-! ### The claims -/

/-- C1 counterexample: with 20.0 available and a cart demanding 25.0, the
code does not fail with InsufficientStock and does not leave the store
unchanged: it commits, one sale row is persisted, and the crop's
available_qty drops from its pre-call value 20 to 0. -/
theorem finalize_overdemand_counterexample :
    availOf store0.crops 10 = 20 ∧
    (finalizeSale store0 2 [item25] 0 "").map
      (fun t => (t.sales.length, availOf t.crops 10)) = some (1, 0) :=
  ⟨by with_unfolding_all rfl, by with_unfolding_all rfl⟩

/-- C1 (amended): when the cart's total demand for some crop exceeds that
crop's available_qty, finalize_sale does not fail: it still commits,
persists the sale row for the full cart, and clamps that crop's
available_qty to 0. -/
theorem finalize_overdemand_clamps_to_zero (s : Store) (site : Nat)
    (cart : List CartItem) (now : Int) (no : String) (cid : Nat)
    (hne : cart ≠ [])
    (hsite : (s.sites.any fun u => u.site_id = site) = true)
    (hq : ∀ it ∈ cart, 0 ≤ it.qty)
    (hex : ∀ it ∈ cart, it.crop_id ∈ s.crops.map Crop.crop_id)
    (hmem : cid ∈ cart.map CartItem.crop_id)
    (hover : availOf s.crops cid < cartQty cart cid) :
    ∃ t, finalizeSale s site cart now no = some t ∧
      t.sales = s.sales ++ [sale_row s site cart now no] ∧
      availOf t.crops cid = 0 := by
  obtain ⟨crops2, hr⟩ := reduceInventory_isSome cart s.crops hex
  refine ⟨_, finalizeSale_intro hne hsite hr, rfl, ?_⟩
  have hh := (reduceInventory_avail cart s.crops crops2 cid hr hq).1 hmem
  show availOf crops2 cid = 0
  rw [hh, max_eq_left (by linarith)]

theorem finalize_overdemand_clamps_to_zero_witness :
    ∃ t, finalizeSale store0 2 [item25] 0 "" = some t ∧
      t.sales = store0.sales ++ [sale_row store0 2 [item25] 0 ""] ∧
      availOf t.crops 10 = 0 := by
  refine finalize_overdemand_clamps_to_zero store0 2 [item25] 0 "" 10
    (by simp) (by with_unfolding_all rfl) ?_ ?_ ?_ ?_
  · intro it hit
    rw [List.mem_singleton] at hit
    subst hit
    show (0:ℚ) ≤ 25
    norm_num
  · intro it hit
    rw [List.mem_singleton] at hit
    subst hit
    show (10:Nat) ∈ store0.crops.map Crop.crop_id
    rw [show store0.crops.map Crop.crop_id = [10] from rfl]
    exact List.mem_singleton.mpr rfl
  · rw [show ([item25].map CartItem.crop_id) = [10] from rfl]
    exact List.mem_singleton.mpr rfl
  · have h1 : availOf store0.crops 10 = 20 := by with_unfolding_all rfl
    have h2 : cartQty [item25] 10 = 25 := by with_unfolding_all rfl
    rw [h1, h2]
    norm_num

/-- C2 counterexample: start empty, add a site and a crop with yield 20,
then finalize a cart demanding 25: the crop ends with available_qty 0,
while yield + adjustments − sold = −5, so the conservation invariant of the
claim fails on this committed run. -/
theorem conservation_counterexample :
    (runOps emptyStore opsC2).map (fun t => t.crops.map (fun c =>
      (c.available_qty, c.yield_qty + adjSum emptyStore opsC2 c.crop_id -
        soldSum opsC2 c.crop_id))) = some [(0, -5)] := by
  with_unfolding_all rfl

/-- C2 (amended): after every committed run from the empty store in which no
finalize ever demands more than the current balance (so the zero-clamp of
line 309 never fires), every crop's available_qty equals its yield_qty plus
the sum of inventory adjustments applied to it minus the total quantity
sold for it. -/
theorem conservation_without_clamping (ops : List Op) (t : Store)
    (h : runOps emptyStore ops = some t)
    (hnc : opsNoClamp emptyStore ops = true) :
    ∀ c ∈ t.crops,
      c.available_qty = c.yield_qty + adjSum emptyStore ops c.crop_id -
        soldSum ops c.crop_id := by
  intro c hc
  have haux := conservation_aux ops emptyStore t (fun _ => 0) List.nodup_nil
    (fun d hd => absurd hd (List.not_mem_nil d)) (fun _ _ => rfl) h hnc c hc
  have haux' : c.available_qty = c.yield_qty + (0:ℚ) +
      adjSum emptyStore ops c.crop_id - soldSum ops c.crop_id := haux
  linarith [haux']

theorem conservation_without_clamping_witness :
    cropW.available_qty = cropW.yield_qty + adjSum emptyStore opsW cropW.crop_id -
      soldSum opsW cropW.crop_id := by
  refine conservation_without_clamping opsW tW (by with_unfolding_all rfl)
    (by with_unfolding_all rfl) cropW ?_
  rw [show tW.crops = [cropW] from by with_unfolding_all rfl]
  exact List.mem_singleton.mpr rfl

/-- C3: every sale committed by finalize_sale reconciles: subtotal is the sum
of qty × price_per_unit − discount over its persisted lines (discounts are
identically 0 in this code), tax = round_half_up(subtotal × tax_rate, 2) for
the configured rate tax_rate = 0, and total = subtotal + tax. -/
theorem sale_totals_reconcile (s : Store) (site : Nat) (cart : List CartItem)
    (now : Int) (no : String) (t : Store)
    (h : finalizeSale s site cart now no = some t) :
    ∃ sa, t.sales = s.sales ++ [sa] ∧
      sa.subtotal = (sa.items_json.map (fun it => it.qty * it.price_per_unit - 0)).sum ∧
      sa.tax = round_half_up (sa.subtotal * tax_rate) 2 ∧
      sa.total = sa.subtotal + sa.tax := by
  obtain ⟨crops2, hr, _, _, hsales⟩ := finalizeSale_elim h
  refine ⟨_, hsales, ?_, ?_, sale_row_total s site cart now no⟩
  · rw [sale_row_subtotal, sale_row_items]
    simp only [sub_zero]
    rfl
  · rw [sale_row_tax, sale_row_subtotal, show tax_rate = (0:ℚ) from rfl, mul_zero]
    exact (show round_half_up 0 2 = 0 by with_unfolding_all rfl).symm

theorem sale_totals_reconcile_witness :
    ∃ sa, t0.sales = store0.sales ++ [sa] ∧
      sa.subtotal = (sa.items_json.map (fun it => it.qty * it.price_per_unit - 0)).sum ∧
      sa.tax = round_half_up (sa.subtotal * tax_rate) 2 ∧
      sa.total = sa.subtotal + sa.tax :=
  sale_totals_reconcile store0 2 [item4] 0 "" t0 (by with_unfolding_all rfl)

/-- C4: after every committed run of UI operations from the empty store
(whose input widgets enforce non-negative yields, balances and cart
quantities), every crop's available_qty is non-negative. -/
theorem available_qty_nonneg (ops : List Op) (t : Store)
    (hv : ops.all opValid = true) (h : runOps emptyStore ops = some t) :
    ∀ c ∈ t.crops, 0 ≤ c.available_qty :=
  runOps_avail_nonneg ops emptyStore t hv (fun c hc => absurd hc (List.not_mem_nil c)) h

theorem available_qty_nonneg_witness : 0 ≤ cropW.available_qty := by
  refine available_qty_nonneg opsW tW (by with_unfolding_all rfl)
    (by with_unfolding_all rfl) cropW ?_
  rw [show tW.crops = [cropW] from by with_unfolding_all rfl]
  exact List.mem_singleton.mpr rfl

/-- C5 counterexample: the sites table has no kind column, so site 1 (the
spec's "field") is accepted: finalize_sale succeeds and persists a sale
whose site_id is 1, contradicting the claimed WrongSiteKind failure and
non-persistence. -/
theorem finalize_field_site_counterexample :
    (finalizeSale storeF 1 [item4] 0 "").map (fun t => t.sales.map Sale.site_id) =
      some [1] := by
  with_unfolding_all rfl

/-- C5 (amended): sites carry no kind attribute and finalize_sale performs no
site-kind validation: for any existing site id (the spec's fields included)
it commits, and the persisted sale's site_id is exactly the selected site. -/
theorem finalize_any_existing_site (s : Store) (site : Nat) (cart : List CartItem)
    (now : Int) (no : String)
    (hne : cart ≠ [])
    (hsite : (s.sites.any fun u => u.site_id = site) = true)
    (hex : ∀ it ∈ cart, it.crop_id ∈ s.crops.map Crop.crop_id) :
    ∃ t, finalizeSale s site cart now no = some t ∧
      t.sales = s.sales ++ [sale_row s site cart now no] ∧
      (sale_row s site cart now no).site_id = site := by
  obtain ⟨crops2, hr⟩ := reduceInventory_isSome cart s.crops hex
  exact ⟨_, finalizeSale_intro hne hsite hr, rfl, rfl⟩

theorem finalize_any_existing_site_witness :
    ∃ t, finalizeSale storeF 1 [item4] 0 "" = some t ∧
      t.sales = storeF.sales ++ [sale_row storeF 1 [item4] 0 ""] ∧
      (sale_row storeF 1 [item4] 0 "").site_id = 1 := by
  refine finalize_any_existing_site storeF 1 [item4] 0 "" (by simp)
    (by with_unfolding_all rfl) ?_
  intro it hit
  rw [List.mem_singleton] at hit
  subst hit
  show (10:Nat) ∈ storeF.crops.map Crop.crop_id
  rw [show storeF.crops.map Crop.crop_id = [10] from rfl]
  exact List.mem_singleton.mpr rfl

/-- C6 counterexample: add_crop called with yield 5 and an actual harvest
date creates the crop with yield_qty = 5, available_qty = 5 and the date
present — not with zeros and an absent date as the claim states. -/
theorem add_crop_counterexample :
    (addCrop storeS 1 "Tomato" 0 90 (some 100) 5 "kg" 3 "").crops.map
      (fun c => (c.yield_qty, c.available_qty, c.actual_harvest_date)) =
      [(5, 5, some 100)] := by
  with_unfolding_all rfl

/-- C6 (amended): add_crop creates the new crop with yield_qty equal to the
yield supplied on the form, available_qty initialised to that same value,
and actual_harvest_date exactly as supplied (absent only when left blank);
there is no separate record_harvest operation. -/
theorem add_crop_initial_fields (s : Store) (site : Nat) (iname : String)
    (dp eh : Int) (ah : Option Int) (yq : ℚ) (u : String) (ppu : ℚ) (no : String) :
    ∃ c, (addCrop s site iname dp eh ah yq u ppu no).crops = s.crops ++ [c] ∧
      c.yield_qty = yq ∧ c.available_qty = yq ∧ c.actual_harvest_date = ah ∧
      c.item_name = iname ∧ c.site_id = site :=
  ⟨_, rfl, rfl, rfl, rfl, rfl, rfl⟩

/-- C7 counterexample: for three unharvested crops expected at today+3,
today+10 and today−1 with the 7-day window, the alert returns only the
first crop; the third (one day overdue) is not in the result, contrary to
the claim's "returns the first and the third". -/
theorem harvest_due_counterexample :
    (harvestDueSoon crops3 100).map Crop.crop_id = [1] ∧
      cropH3 ∉ harvestDueSoon crops3 100 := by
  constructor
  · with_unfolding_all rfl
  · intro hmem
    have h1 : (harvestDueSoon crops3 100).map Crop.crop_id = [1] := by
      with_unfolding_all rfl
    have h2 := List.mem_map_of_mem Crop.crop_id hmem
    rw [h1, List.mem_singleton] at h2
    exact absurd h2 (by decide)

/-- C7 (amended): the alert returns exactly the crops whose
actual_harvest_date is absent and whose expected_harvest_date satisfies
0 ≤ expected − today ≤ 7 (the code's fixed 7-day window); in the three-crop
scenario it therefore returns only the first crop, not the third. -/
theorem harvest_due_within_characterization :
    (∀ (crops : List Crop) (today : Int) (c : Crop),
      c ∈ harvestDueSoon crops today ↔
        c ∈ crops ∧ c.actual_harvest_date = none ∧
          0 ≤ c.expected_harvest_date - today ∧ c.expected_harvest_date - today ≤ 7) ∧
    (harvestDueSoon crops3 100).map Crop.crop_id = [1] := by
  constructor
  · intro crops today c
    unfold harvestDueSoon activeCrops days_until
    rw [List.mem_filter, List.mem_filter]
    simp [Option.isNone_iff_eq_none, and_assoc]
  · with_unfolding_all rfl

/-- C8: sale ids assigned by successive committed finalize operations are
strictly increasing in commit order: after any committed run from the empty
store the sale_id column is strictly sorted in table (= commit) order. -/
theorem sale_ids_strictly_increasing (ops : List Op) (t : Store)
    (h : runOps emptyStore ops = some t) :
    List.Pairwise (· < ·) (t.sales.map Sale.sale_id) :=
  runOps_sale_ids_pairwise ops emptyStore t List.Pairwise.nil h

theorem sale_ids_strictly_increasing_witness :
    List.Pairwise (· < ·) (tW.sales.map Sale.sale_id) :=
  sale_ids_strictly_increasing opsW tW (by with_unfolding_all rfl)

/-- C9: for every non-empty cart over existing crops (with the widget-enforced
non-negative quantities) and every inventory state, finalize_sale commits: a
sale row holding the full cart is persisted, and each referenced crop's
available_qty becomes max(0, previous value − total demand for it). -/
theorem finalize_always_commits (s : Store) (site : Nat) (cart : List CartItem)
    (now : Int) (no : String)
    (hne : cart ≠ [])
    (hsite : (s.sites.any fun u => u.site_id = site) = true)
    (hq : ∀ it ∈ cart, 0 ≤ it.qty)
    (hex : ∀ it ∈ cart, it.crop_id ∈ s.crops.map Crop.crop_id) :
    ∃ t, finalizeSale s site cart now no = some t ∧
      (∃ sa, t.sales = s.sales ++ [sa] ∧ sa.items_json = cart) ∧
      ∀ it ∈ cart, availOf t.crops it.crop_id =
        max 0 (availOf s.crops it.crop_id - cartQty cart it.crop_id) := by
  obtain ⟨crops2, hr⟩ := reduceInventory_isSome cart s.crops hex
  refine ⟨_, finalizeSale_intro hne hsite hr, ⟨_, rfl, rfl⟩, ?_⟩
  intro it hit
  show availOf crops2 it.crop_id =
    max 0 (availOf s.crops it.crop_id - cartQty cart it.crop_id)
  exact (reduceInventory_avail cart s.crops crops2 it.crop_id hr hq).1
    (List.mem_map_of_mem CartItem.crop_id hit)

theorem finalize_always_commits_witness :
    ∃ t, finalizeSale store0 2 [item4] 0 "" = some t ∧
      (∃ sa, t.sales = store0.sales ++ [sa] ∧ sa.items_json = [item4]) ∧
      ∀ it ∈ [item4], availOf t.crops it.crop_id =
        max 0 (availOf store0.crops it.crop_id - cartQty [item4] it.crop_id) := by
  refine finalize_always_commits store0 2 [item4] 0 "" (by simp)
    (by with_unfolding_all rfl) ?_ ?_
  · intro it hit
    rw [List.mem_singleton] at hit
    subst hit
    show (0:ℚ) ≤ 4
    norm_num
  · intro it hit
    rw [List.mem_singleton] at hit
    subst hit
    show (10:Nat) ∈ store0.crops.map Crop.crop_id
    rw [show store0.crops.map Crop.crop_id = [10] from rfl]
    exact List.mem_singleton.mpr rfl

/-- C10: finalize_sale changes the store only by updating available_qty of
the carted crops and appending exactly one sales row: sites are unchanged,
prior sales rows are unchanged (the new table is the old one plus one row),
and positionally every crop keeps all its other columns, with crops not in
the cart completely unchanged. -/
theorem finalize_frame (s : Store) (site : Nat) (cart : List CartItem) (now : Int)
    (no : String) (t : Store) (h : finalizeSale s site cart now no = some t) :
    t.sites = s.sites ∧
    t.sales = s.sales ++ [sale_row s site cart now no] ∧
    List.Forall₂ (fun c c' => sameExceptAvail c c' ∧
      (c.crop_id ∉ cart.map CartItem.crop_id → c' = c)) s.crops t.crops := by
  obtain ⟨crops2, hr, hsites, hcrops, hsales⟩ := finalizeSale_elim h
  refine ⟨hsites, hsales, ?_⟩
  rw [hcrops]
  exact reduceInventory_frame cart s.crops crops2 hr

theorem finalize_frame_witness :
    t0.sites = store0.sites ∧
    t0.sales = store0.sales ++ [sale_row store0 2 [item4] 0 ""] ∧
    List.Forall₂ (fun c c' => sameExceptAvail c c' ∧
      (c.crop_id ∉ [item4].map CartItem.crop_id → c' = c)) store0.crops t0.crops :=
  finalize_frame store0 2 [item4] 0 "" t0 (by with_unfolding_all rfl)

end FarmApp
